import Mathlib

/-!
Verification of the `multilspy-xcode-build-server` LSP client engine
(`src/multispy_xcode_build_server/server.py`), as a shallow embedding.

JSON payloads are modelled by an inductive `Json` type (object fields as
insertion-ordered association lists, matching Python `dict` iteration order;
JSON numbers appearing in this code base are integers).  Python runtime
errors (`AssertionError`, `KeyError`, `TypeError`, `AttributeError`,
`MultilspyException`) are modelled by an error type and `Except`.
Effectful methods are modelled as functions returning the list of
protocol-level actions they perform together with their `Except` outcome.
External OS/path library calls (`os.getpid`, `os.path.*`, `pathlib.Path.as_uri`)
are abstracted into an environment record of uninterpreted functions.
-/

/-- A JSON value as manipulated by the Python code.  Object fields keep
insertion order, as Python dicts do. -/
inductive Json where
  | null : Json
  | bool (b : Bool) : Json
  | int (n : Int) : Json
  | str (s : String) : Json
  | arr (elems : List Json) : Json
  | obj (fields : List (String × Json)) : Json

/-- Python runtime errors raised by the code under verification.
`bodyExc` stands for an arbitrary exception raised by the caller's scoped
body inside `start_server`. -/
inductive PyErr where
  | assertErr : PyErr
  | keyErr (k : String) : PyErr
  | typeErr : PyErr
  | attrErr : PyErr
  | multilspyErr (msg : String) : PyErr
  | bodyExc : PyErr
deriving Repr, DecidableEq

/-- First binding of a key in an association list (Python dict lookup). -/
def lookupField (fields : List (String × Json)) (k : String) : Option Json :=
  match fields with
  | [] => none
  | (k2, v) :: rest => if k2 = k then some v else lookupField rest k

/-- `d[k] = v` on an association list: Python dict assignment keeps the
position of an existing key and appends a fresh key at the end. -/
def setAssoc {α : Type} (l : List (String × α)) (k : String) (v : α) :
    List (String × α) :=
  match l with
  | [] => [(k, v)]
  | (k2, w) :: rest =>
    if k2 = k then (k, v) :: rest else (k2, w) :: setAssoc rest k v

/-- Membership test `k in d` for a Python dict. -/
def hasField (fields : List (String × Json)) (k : String) : Bool :=
  (lookupField fields k).isSome

/-- Python subscript `x[k]` with a string key: on a dict it is lookup
(`KeyError` when absent), on any other value it is a `TypeError`. -/
def pySubscript (j : Json) (k : String) : Except PyErr Json :=
  match j with
  | .obj fields =>
    match lookupField fields k with
    | some v => .ok v
    | none => .error (.keyErr k)
  | _ => .error .typeErr

/-- Numeric view used by Python `==`: `True == 1` and `False == 0`. -/
def pyNumView (j : Json) : Option Int :=
  match j with
  | .bool b => some (if b then 1 else 0)
  | .int n => some n
  | _ => none

mutual
/-- Python `==` on JSON values: numbers compare by value (booleans are the
numbers 0 and 1), strings and `None` by identity of content, lists
element-wise in order, dicts by key set with equal values. -/
def pyEq : Json → Json → Bool
  | .null, .null => true
  | .str a, .str b => a == b
  | .arr a, .arr b => pyEqList a b
  | .obj a, .obj b =>
    pyEqFields a b && b.all (fun kv => a.any (fun kv2 => kv2.1 == kv.1))
  | a, b =>
    match pyNumView a, pyNumView b with
    | some m, some n => m == n
    | _, _ => false

def pyEqList : List Json → List Json → Bool
  | [], [] => true
  | x :: xs, y :: ys => pyEq x y && pyEqList xs ys
  | _, _ => false

def pyEqFields : List (String × Json) → List (String × Json) → Bool
  | [], _ => true
  | (k, v) :: rest, b =>
    (match lookupField b k with
     | some w => pyEq v w
     | none => false) && pyEqFields rest b
end

/-- `src/multispy_xcode_build_server/server.py`, lines 216-224 (inner loop):
translate one list of raw rename edits.  For each entry the code asserts it
is a dict containing `"range"` and `"newText"`, then keeps the dict itself
(`TextEdit(**change)` copies every key of `change`). -/
def translateEdits : List Json → Except PyErr (List Json)
  | [] => .ok []
  | c :: rest =>
    match c with
    | .obj f =>
      if hasField f "range" then
        if hasField f "newText" then
          match translateEdits rest with
          | .ok es => .ok (c :: es)
          | .error e => .error e
        else .error .assertErr
      else .error .assertErr
    | _ => .error .assertErr

/-- `server.py`, lines 216-224 (outer loop over `response["changes"].items()`):
each value must be a list of well-formed edits; results are stored with
`ret[uri] = edits`. -/
def translateChanges :
    List (String × Json) → List (String × List Json) →
    Except PyErr (List (String × List Json))
  | [], acc => .ok acc
  | (uri, changes) :: rest, acc =>
    match changes with
    | .arr cs =>
      match translateEdits cs with
      | .ok edits => translateChanges rest (setAssoc acc uri edits)
      | .error e => .error e
    | _ => .error .assertErr

/-- `server.py`, lines 212-226: the response-shape validation and typed
translation of `request_rename`.  The code asserts the response is a dict
containing `"changes"`, then iterates `response["changes"].items()`
(an `AttributeError` when `changes` is not a dict). -/
def translateRenameResponse (response : Json) :
    Except PyErr (List (String × List Json)) :=
  match response with
  | .obj fields =>
    if hasField fields "changes" then
      match lookupField fields "changes" with
      | some (.obj changesFields) => translateChanges changesFields []
      | some _ => .error .attrErr
      | none => .error .assertErr
    else .error .assertErr
  | _ => .error .assertErr

/-- `server.py`, lines 251-268: translate one raw workspace-symbol item.
The code asserts the item is a dict, reads `name`, `kind` and `location`
(`KeyError` when absent), keeps the location when it is a dict containing
`"range"` and otherwise rebuilds `{"uri": item["location"]["uri"]}`
(a `TypeError` when the location is not a dict), then copies
`containerName`, `tags` and `data` when present, in that order. -/
def translateSymbolItem (item : Json) : Except PyErr Json :=
  match item with
  | .obj f => do
    let nameV ← pySubscript item "name"
    let kindV ← pySubscript item "kind"
    let loc ← pySubscript item "location"
    let locVal ←
      match loc with
      | .obj lf =>
        if hasField lf "range" then Except.ok loc
        else do
          let u ← pySubscript loc "uri"
          Except.ok (Json.obj [("uri", u)])
      | _ => pySubscript loc "uri"
    let base := [("name", nameV), ("kind", kindV), ("location", locVal)]
    let withOpt := ["containerName", "tags", "data"].foldl
      (fun acc fld =>
        match lookupField f fld with
        | some v => setAssoc acc fld v
        | none => acc) base
    Except.ok (Json.obj withOpt)
  | _ => .error .assertErr

/-- `server.py`, lines 251-268 (loop): items are translated in order; the
result list is returned only when every item translates. -/
def translateSymbolList : List Json → Except PyErr (List Json)
  | [] => .ok []
  | item :: rest =>
    match translateSymbolItem item with
    | .ok s =>
      match translateSymbolList rest with
      | .ok ss => .ok (s :: ss)
      | .error e => .error e
    | .error e => .error e

/-- `server.py`, lines 244-270: the response-shape validation and typed
translation of `request_workspace_symbols`.  A `None` (here `Json.null`)
response yields the empty list; otherwise the response must be a list. -/
def translateWorkspaceSymbolsResponse (response : Json) :
    Except PyErr (List Json) :=
  match response with
  | .null => .ok []
  | .arr items => translateSymbolList items
  | _ => .error .assertErr

/-- Abstract environment for the OS and path library calls the code makes
(`os.getpid`, `os.path.isabs`, `os.path.abspath`, `os.path.basename`,
`os.path.join`, `pathlib.Path(...).as_uri()`): these live outside the
repository and are treated as uninterpreted. -/
structure OsEnv where
  pid : Int
  isabs : String → Bool
  abspath : String → String
  as_uri : String → String
  basename : String → String
  joinPath : String → String → String

/-- `server.py`, line 75: the placeholder marker for `processId`. -/
def markerProcessId : String := "os.getpid()"

/-- `server.py`, line 78: the placeholder marker for `rootPath`. -/
def markerRootPath : String := "repository_absolute_path"

/-- `server.py`, line 81: the placeholder marker for `rootUri`. -/
def markerRootUri : String := "pathlib.Path(repository_absolute_path).as_uri()"

/-- `server.py`, lines 84-87: the placeholder marker for `workspaceFolders`. -/
def markerWorkspaceFolders : String :=
  "[\n            \x7b\n                \"uri\": pathlib.Path(repository_absolute_path).as_uri(),\n                \"name\": os.path.basename(repository_absolute_path),\n            \x7d\n        ]"

/-- Python dict assignment `d[k] = v` (a `TypeError` on a non-dict with a
string key). -/
def pyAssign (j : Json) (k : String) (v : Json) : Except PyErr Json :=
  match j with
  | .obj fields => .ok (.obj (setAssoc fields k v))
  | _ => .error .typeErr

/-- `server.py`, lines 64-97, `_get_initialize_params`: `template` is the
dict loaded from `initialize_params.json`.  The path is made absolute when
needed; then, field by field, the code asserts the placeholder equals its
literal marker and substitutes the real value. -/
def getInitializeParams (env : OsEnv) (template : Json)
    (repositoryAbsolutePath : String) : Except PyErr Json := do
  let p := if env.isabs repositoryAbsolutePath then repositoryAbsolutePath
           else env.abspath repositoryAbsolutePath
  let v1 ← pySubscript template "processId"
  if pyEq v1 (.str markerProcessId) then do
    let d1 ← pyAssign template "processId" (.int env.pid)
    let v2 ← pySubscript d1 "rootPath"
    if pyEq v2 (.str markerRootPath) then do
      let d2 ← pyAssign d1 "rootPath" (.str p)
      let v3 ← pySubscript d2 "rootUri"
      if pyEq v3 (.str markerRootUri) then do
        let d3 ← pyAssign d2 "rootUri" (.str (env.as_uri p))
        let v4 ← pySubscript d3 "workspaceFolders"
        if pyEq v4 (.str markerWorkspaceFolders) then
          pyAssign d3 "workspaceFolders"
            (.arr [.obj [("uri", .str (env.as_uri p)),
                         ("name", .str (env.basename p))]])
        else .error .assertErr
      else .error .assertErr
    else .error .assertErr
  else .error .assertErr

/-- Protocol-level actions performed by the typed query methods. -/
inductive QueryAction where
  | logError (msg : String)
  | didOpen (relativePath : String)
  | didClose (relativePath : String)
  | renameRequest (uri : String) (line : Int) (column : Int) (newName : String)
  | workspaceSymbolRequest (query : String)
deriving Repr, DecidableEq

/-- Modelled from the spec: `LanguageServer.open_file` is defined in the
multilspy base class, which is not part of this repository.  Per the spec's
Open-File Scope, it sends `textDocument/didOpen` on entry and
`textDocument/didClose` on every exit path of the scope, including
exceptions.  `withOpenFile` wraps a scoped body's actions and outcome
accordingly. -/
def withOpenFile {α : Type} (relativePath : String)
    (body : List QueryAction × Except PyErr α) : List QueryAction × Except PyErr α :=
  (QueryAction.didOpen relativePath :: body.1 ++ [QueryAction.didClose relativePath],
   body.2)

/-- `server.py`, lines 179-226, `request_rename`, as a trace of actions plus
an outcome.  `renameResp` is the environment's answer to the
`textDocument/rename` request (`error` when the request itself raises). -/
def request_rename (env : OsEnv) (repositoryRootPath : String)
    (serverStarted : Bool) (relativeFilePath : String) (line column : Int)
    (newName : String) (renameResp : Except PyErr Json) :
    List QueryAction × Except PyErr (List (String × List Json)) :=
  if serverStarted then
    let uri := env.as_uri (env.joinPath repositoryRootPath relativeFilePath)
    let scopedRun := withOpenFile relativeFilePath
      ([QueryAction.renameRequest uri line column newName], renameResp)
    match scopedRun.2 with
    | .error e => (scopedRun.1, .error e)
    | .ok resp => (scopedRun.1, translateRenameResponse resp)
  else
    ([.logError "request_rename called before Language Server started"],
     .error (.multilspyErr "Language Server not started"))

/-- `server.py`, lines 228-270, `request_workspace_symbols`, as a trace of
actions plus an outcome.  `wsResp` is the environment's answer to the
`workspace/symbol` request, with Python `None` embedded as `Json.null`. -/
def request_workspace_symbols (serverStarted : Bool) (query : String)
    (wsResp : Except PyErr Json) : List QueryAction × Except PyErr (List Json) :=
  if serverStarted then
    match wsResp with
    | .error e => ([.workspaceSymbolRequest query], .error e)
    | .ok resp =>
      ([.workspaceSymbolRequest query], translateWorkspaceSymbolsResponse resp)
  else
    ([.logError "request_workspace_symbols called before Language Server started"],
     .error (.multilspyErr "Language Server not started"))

/-- Events in a `start_server` execution: handler registrations, entry into
the base-class context, logging, process and protocol steps, the caller's
scoped body, and the shutdown sequence. -/
inductive SEvent where
  | onRequest (method : String)
  | onNotification (method : String)
  | superStart
  | log (msg : String)
  | processStart
  | sendInitialize
  | notifyInitialized
  | bodyRun
  | shutdownRequest
  | stopServer
deriving Repr, DecidableEq

/-- `server.py`, lines 148-154: the seven server-push handler registrations,
in source order. -/
def handlerRegistrations : List SEvent :=
  [.onRequest "client/registerCapability",
   .onNotification "language/status",
   .onNotification "window/logMessage",
   .onRequest "workspace/executeClientCommand",
   .onNotification "$/progress",
   .onNotification "textDocument/publishDiagnostics",
   .onNotification "language/actionableNotification"]

/-- `server.py`, line 166: the chained subscript
`init_response["capabilities"]["textDocumentSync"]["change"]`. -/
def initChangeField (initResp : Json) : Except PyErr Json := do
  let caps ← pySubscript initResp "capabilities"
  let tds ← pySubscript caps "textDocumentSync"
  pySubscript tds "change"

/-- `server.py`, lines 99-177, the `start_server` async context manager, as
a trace of events plus an outcome, following Python `@asynccontextmanager`
semantics: the statements after `yield` run only when the caller's scoped
body completes without an exception, since the `yield` is not wrapped in
`try`/`finally`.  External inputs are parameters: `template` is the dict
loaded from `initialize_params.json`, `initResp` the server's answer to the
`initialize` request, and `bodySucceeds` says whether the scoped body
completes normally. -/
def startServerTrace (env : OsEnv) (template : Json)
    (repositoryRootPath : String) (initResp : Json) (bodySucceeds : Bool) :
    List SEvent × Except PyErr Unit :=
  let pre := handlerRegistrations ++
    [SEvent.superStart,
     SEvent.log "Starting XcodeBuildServer server process",
     SEvent.processStart]
  match getInitializeParams env template repositoryRootPath with
  | .error e => (pre, .error e)
  | .ok _ =>
    let pre2 := pre ++
      [SEvent.log "Sending initialize request from LSP client to LSP server and awaiting response",
       SEvent.sendInitialize]
    match initChangeField initResp with
    | .error e => (pre2, .error e)
    | .ok v =>
      if pyEq v (.int 2) then
        let pre3 := pre2 ++ [SEvent.notifyInitialized, SEvent.bodyRun]
        if bodySucceeds then
          (pre3 ++ [SEvent.shutdownRequest, SEvent.stopServer], .ok ())
        else (pre3, .error .bodyExc)
      else (pre2, .error .assertErr)

/-- `server.py`, lines 118-127: the per-registration step of
`register_capability_handler`.  For a `textDocument/completion`
registration the code asserts `registerOptions.resolveProvider == True` and
`registerOptions.triggerCharacters == [".", "@", "#", "*", " "]` and sets
the `completions_available` event; other methods are skipped.  The boolean
threads whether the event has been set so far in this call. -/
def completionRegistrationStep (setEvt : Bool) (registration : Json) :
    Except PyErr Bool := do
  let m ← pySubscript registration "method"
  if pyEq m (.str "textDocument/completion") then do
    let ro ← pySubscript registration "registerOptions"
    let rp ← pySubscript ro "resolveProvider"
    if pyEq rp (.bool true) then do
      let ro2 ← pySubscript registration "registerOptions"
      let tc ← pySubscript ro2 "triggerCharacters"
      if pyEq tc (.arr [.str ".", .str "@", .str "#", .str "*", .str " "]) then
        Except.ok true
      else .error .assertErr
    else .error .assertErr
  else Except.ok setEvt

/-- `server.py`, lines 117-127: the loop over `params["registrations"]`. -/
def registerLoop : List Json → Bool → Except PyErr Bool
  | [], setEvt => .ok setEvt
  | reg :: rest, setEvt =>
    match completionRegistrationStep setEvt reg with
    | .ok s => registerLoop rest s
    | .error e => .error e

/-- `server.py`, lines 115-128, `register_capability_handler`: asserts
`"registrations" in params`, loops over the registrations, and returns
whether `completions_available` was set by this call.  Iteration is
modelled for JSON arrays, the shape `client/registerCapability` params
take; a non-dict `params` or non-array `registrations` value is modelled
as a `TypeError`. -/
def register_capability_handler (params : Json) : Except PyErr Bool :=
  match params with
  | .obj f =>
    if hasField f "registrations" then
      match lookupField f "registrations" with
      | some (.arr regs) => registerLoop regs false
      | some _ => .error .typeErr
      | none => .error .assertErr
    else .error .assertErr
  | _ => .error .typeErr

/-- Whether an `Except` outcome is an error (a raised Python exception). -/
def isErr {α : Type} (x : Except PyErr α) : Bool :=
  match x with
  | .error _ => true
  | .ok _ => false

/-- The element list of a JSON array (and `[]` on other values). -/
def asArr : Json → List Json
  | .arr cs => cs
  | _ => []

/-- Field of a JSON object, `none` on non-objects. -/
def jsonField (j : Json) (k : String) : Option Json :=
  match j with
  | .obj f => lookupField f k
  | _ => none

/-- Expected shape of one rename edit: a dict containing `"range"` and
`"newText"` (spec section 4.4). -/
def editOk (c : Json) : Bool :=
  match c with
  | .obj f => hasField f "range" && hasField f "newText"
  | _ => false

/-- Expected shape of one entry of a rename response's `changes` map: an
array of well-formed edits. -/
def changesEntryOk (kv : String × Json) : Bool :=
  match kv.2 with
  | .arr cs => cs.all editOk
  | _ => false

/-- Expected shape of a rename response: an object whose `changes` field
maps URIs to arrays of edit objects each with a range and replacement text
(spec section 4.4). -/
def renameShapeOk (response : Json) : Bool :=
  match response with
  | .obj fields =>
    match lookupField fields "changes" with
    | some (.obj ch) => ch.all changesEntryOk
    | _ => false
  | _ => false

/-- Expected shape of a workspace-symbol location: a dict that either has a
`"range"` or at least carries a `"uri"`. -/
def locationOk (loc : Json) : Bool :=
  match loc with
  | .obj lf => hasField lf "range" || hasField lf "uri"
  | _ => false

/-- Expected shape of one workspace-symbol item: a dict with `name`, `kind`
and a well-formed `location` (spec section 4.4). -/
def symbolItemOk (item : Json) : Bool :=
  match item with
  | .obj f =>
    hasField f "name" && hasField f "kind" &&
      (match lookupField f "location" with
       | some loc => locationOk loc
       | none => false)
  | _ => false

/-- Expected shape of a workspace-symbol response: `null`, or a list of
well-formed items. -/
def wsShapeOk (response : Json) : Bool :=
  match response with
  | .null => true
  | .arr items => items.all symbolItemOk
  | _ => false

/-- A concrete LSP range used in the synthetic rename response. -/
def syntheticRange : Json :=
  .obj [("start", .obj [("line", .int 0), ("character", .int 4)]),
        ("end", .obj [("line", .int 0), ("character", .int 7)])]

/-- The synthetic edit `{"range": {...}, "newText": "foo"}`. -/
def syntheticEdit : Json :=
  .obj [("range", syntheticRange), ("newText", .str "foo")]

/-- The synthetic rename response named by the spec. -/
def syntheticRenameChanges : List (String × Json) :=
  [("file:///a.swift", .arr [syntheticEdit])]

/-- Recognizer for the `didOpen` action of a given file. -/
def isOpenOf (p : String) : QueryAction → Bool
  | .didOpen q => q == p
  | _ => false

/-- Recognizer for the `didClose` action of a given file. -/
def isCloseOf (p : String) : QueryAction → Bool
  | .didClose q => q == p
  | _ => false

/-- A workspace-symbol item whose location has no range. -/
def wsItemNoRange : Json :=
  .obj [("name", .str "foo"), ("kind", .int 12),
        ("location", .obj [("uri", .str "file:///a.swift")])]

/-- A workspace-symbol item whose location has a range. -/
def wsItemWithRange : Json :=
  .obj [("name", .str "bar"), ("kind", .int 5),
        ("location", .obj [("uri", .str "file:///b.swift"),
                           ("range", syntheticRange)])]

/-- The two-item synthetic workspace-symbol response. -/
def wsItems : List Json := [wsItemNoRange, wsItemWithRange]

/-- The translation of `wsItems` (here equal to the input items, since the
rebuilt locations coincide with the originals). -/
def wsSyms : List Json := [wsItemNoRange, wsItemWithRange]

/-- Whether the loaded template carries all four expected placeholder
markers (spec section 6, Initialization payload). -/
def templateMarkersOk (template : Json) : Bool :=
  match template with
  | .obj f =>
    (match lookupField f "processId" with
     | some v => pyEq v (.str markerProcessId)
     | none => false) &&
    (match lookupField f "rootPath" with
     | some v => pyEq v (.str markerRootPath)
     | none => false) &&
    (match lookupField f "rootUri" with
     | some v => pyEq v (.str markerRootUri)
     | none => false) &&
    (match lookupField f "workspaceFolders" with
     | some v => pyEq v (.str markerWorkspaceFolders)
     | none => false)
  | _ => false

/-- The path normalization of `_get_initialize_params` (lines 72-73). -/
def normPath (env : OsEnv) (root : String) : String :=
  if env.isabs root then root else env.abspath root

/-- A concrete OS environment for evaluating the model on sample inputs. -/
def sampleEnv : OsEnv where
  pid := 4242
  isabs := fun _ => true
  abspath := fun s => s
  as_uri := fun s => String.append "file://" s
  basename := fun _ => "workspace"
  joinPath := fun a b => String.append (String.append a "/") b

/-- A template carrying the four literal placeholder markers (the shape of
`initialize_params.json` relevant to substitution). -/
def validTemplate : Json :=
  .obj [("processId", .str markerProcessId),
        ("rootPath", .str markerRootPath),
        ("rootUri", .str markerRootUri),
        ("workspaceFolders", .str markerWorkspaceFolders),
        ("capabilities", .obj [])]

/-- The capability check of `start_server` (line 166), as a predicate:
`init_response["capabilities"]["textDocumentSync"]["change"]` exists and
equals `2`. -/
def initChangeOk (initResp : Json) : Bool :=
  match initChangeField initResp with
  | .ok v => pyEq v (.int 2)
  | .error _ => false

/-- An initialize response carrying the expected capability value. -/
def goodInitResp : Json :=
  .obj [("capabilities",
         .obj [("textDocumentSync", .obj [("change", .int 2)])])]

/-- Whether a registration carries a readable `method` field. -/
def hasMethodField (reg : Json) : Bool :=
  match pySubscript reg "method" with
  | .ok _ => true
  | .error _ => false

/-- Whether a registration's method is `textDocument/completion` (the
branch condition at line 118). -/
def isCompletionReg (reg : Json) : Bool :=
  match pySubscript reg "method" with
  | .ok m => pyEq m (.str "textDocument/completion")
  | .error _ => false

/-- Whether a completion registration's options pass both asserted checks
(lines 119-126): `registerOptions.resolveProvider == True` and
`registerOptions.triggerCharacters == [".", "@", "#", "*", " "]`. -/
def completionOptionsOk (reg : Json) : Bool :=
  match pySubscript reg "registerOptions" with
  | .ok ro =>
    (match pySubscript ro "resolveProvider" with
     | .ok rp => pyEq rp (.bool true)
     | .error _ => false) &&
    (match pySubscript ro "triggerCharacters" with
     | .ok tc => pyEq tc
        (.arr [.str ".", .str "@", .str "#", .str "*", .str " "])
     | .error _ => false)
  | .error _ => false

/-- A completion registration carrying exactly the expected options. -/
def goodCompletionReg : Json :=
  .obj [("method", .str "textDocument/completion"),
        ("registerOptions",
         .obj [("resolveProvider", .bool true),
               ("triggerCharacters",
                .arr [.str ".", .str "@", .str "#", .str "*",
                      .str " "])])]

/-- `client/registerCapability` params holding one good completion
registration. -/
def registerParams : Json :=
  .obj [("registrations", .arr [goodCompletionReg])]

theorem lookupField_setAssoc_self (l : List (String × Json)) (k : String)
    (v : Json) : lookupField (setAssoc l k v) k = some v := by
  induction l with
  | nil => simp [setAssoc, lookupField]
  | cons kv rest ih =>
    obtain ⟨k2, w⟩ := kv
    by_cases h : k2 = k
    · simp [setAssoc, h, lookupField]
    · simp [setAssoc, h, lookupField, ih]

theorem lookupField_setAssoc_ne (l : List (String × Json)) (k k2 : String)
    (v : Json) (h : k2 ≠ k) :
    lookupField (setAssoc l k2 v) k = lookupField l k := by
  induction l with
  | nil => simp [setAssoc, lookupField, h]
  | cons kv rest ih =>
    obtain ⟨k3, w⟩ := kv
    by_cases h2 : k3 = k2
    · subst h2
      simp [setAssoc, lookupField, h]
    · by_cases h3 : k3 = k
      · subst h3
        simp [setAssoc, h2, lookupField]
      · simp [setAssoc, h2, lookupField, h3, ih]

theorem setAssoc_append {α : Type} (l : List (String × α)) (k : String)
    (v : α) (h : ∀ kv ∈ l, kv.1 ≠ k) : setAssoc l k v = l ++ [(k, v)] := by
  induction l with
  | nil => simp [setAssoc]
  | cons kv rest ih =>
    obtain ⟨k2, w⟩ := kv
    have hne : k2 ≠ k := h (k2, w) (by simp)
    simp only [setAssoc, hne, if_false]
    rw [ih (fun kv hkv => h kv (by simp [hkv]))]
    simp

theorem translateEdits_eq (cs : List Json) :
    translateEdits cs =
      if cs.all editOk then .ok cs else .error .assertErr := by
  induction cs with
  | nil => simp [translateEdits]
  | cons c rest ih =>
    cases c with
    | obj f =>
      by_cases hr : hasField f "range"
      · by_cases hn : hasField f "newText"
        · by_cases hall : rest.all editOk
          · simp [translateEdits, hr, hn, ih, hall, editOk]
          · simp [translateEdits, hr, hn, ih, hall, editOk]
        · simp [translateEdits, hr, hn, List.all_cons, editOk]
      · simp [translateEdits, hr, List.all_cons, editOk]
    | null => rfl
    | bool b => rfl
    | int n => rfl
    | str s => rfl
    | arr es => rfl

theorem translateChanges_eq (ch : List (String × Json))
    (acc : List (String × List Json)) :
    translateChanges ch acc =
      if ch.all changesEntryOk then
        .ok (ch.foldl (fun a kv => setAssoc a kv.1 (asArr kv.2)) acc)
      else .error .assertErr := by
  induction ch generalizing acc with
  | nil => simp [translateChanges]
  | cons kv rest ih =>
    obtain ⟨uri, changes⟩ := kv
    cases changes with
    | arr cs =>
      have hentry : changesEntryOk (uri, Json.arr cs) = cs.all editOk := rfl
      rw [translateChanges, translateEdits_eq]
      by_cases hcs : cs.all editOk
      · simp only [hcs, if_true]
        rw [ih]
        simp only [List.all_cons, hentry, hcs, Bool.true_and]
        rfl
      · simp only [hcs, if_false, List.all_cons, hentry, Bool.false_and,
          Bool.and_eq_true, false_and, if_false]
        simp [hcs]
    | null => rfl
    | bool b => rfl
    | int n => rfl
    | str s => rfl
    | obj f => rfl

theorem foldSet_append (ch : List (String × Json))
    (acc : List (String × List Json))
    (h1 : ∀ kv ∈ ch, ∀ kv2 ∈ acc, kv2.1 ≠ kv.1)
    (h2 : (ch.map Prod.fst).Nodup) :
    ch.foldl (fun a kv => setAssoc a kv.1 (asArr kv.2)) acc =
      acc ++ ch.map (fun kv => (kv.1, asArr kv.2)) := by
  induction ch generalizing acc with
  | nil => simp
  | cons kv rest ih =>
    obtain ⟨k, v⟩ := kv
    simp only [List.map_cons, List.foldl_cons]
    have h2' : (k :: rest.map Prod.fst).Nodup := by simpa using h2
    have hknot : k ∉ rest.map Prod.fst := (List.nodup_cons.mp h2').1
    rw [setAssoc_append _ _ _ (fun kv2 hkv2 => h1 (k, v) (by simp) kv2 hkv2)]
    rw [ih (acc ++ [(k, asArr v)])]
    · simp
    · intro kv hkv kv2 hkv2
      rcases List.mem_append.mp hkv2 with hacc | hsing
      · exact h1 kv (by simp [hkv]) kv2 hacc
      · have hkv2eq : kv2 = (k, asArr v) := by simpa using hsing
        subst hkv2eq
        intro hcontra
        exact hknot (by
          simp only [List.mem_map]
          exact ⟨kv, hkv, hcontra.symm⟩)
    · exact (List.nodup_cons.mp h2').2

/-- C1: for a rename response `{"changes": {uri: [edit, ...], ...}}` whose
edits are all dicts with `"range"` and `"newText"`, `request_rename`'s
translation returns exactly the same URI keys in the same order, each mapped
to its edit list unchanged (hence with the same range and newText). -/
theorem claim_C1 (fields : List (String × Json)) (ch : List (String × Json))
    (hch : lookupField fields "changes" = some (.obj ch))
    (hnodup : (ch.map Prod.fst).Nodup)
    (hok : ch.all changesEntryOk = true) :
    translateRenameResponse (.obj fields) =
      .ok (ch.map (fun kv => (kv.1, asArr kv.2))) := by
  have hhas : hasField fields "changes" = true := by
    simp [hasField, hch]
  simp only [translateRenameResponse, hhas, if_true, hch]
  rw [translateChanges_eq, if_pos hok]
  rw [foldSet_append ch [] (by intro kv _ kv2 h; simp at h) hnodup]
  simp

theorem claim_C1_witness :
    translateRenameResponse (.obj [("changes", .obj syntheticRenameChanges)]) =
      .ok [("file:///a.swift", [syntheticEdit])] :=
  claim_C1 [("changes", .obj syntheticRenameChanges)] syntheticRenameChanges
    rfl (by simp [syntheticRenameChanges]) rfl

/-- C4: with the session not started, both typed queries raise the
`MultilspyException "Language Server not started"` precondition error after
only the error log: no file is opened and no request is sent. -/
theorem claim_C4 (env : OsEnv) (repositoryRootPath relativeFilePath : String)
    (line column : Int) (newName : String) (renameResp : Except PyErr Json)
    (query : String) (wsResp : Except PyErr Json) :
    request_rename env repositoryRootPath false relativeFilePath line column
        newName renameResp =
      ([.logError "request_rename called before Language Server started"],
       .error (.multilspyErr "Language Server not started")) ∧
    request_workspace_symbols false query wsResp =
      ([.logError "request_workspace_symbols called before Language Server started"],
       .error (.multilspyErr "Language Server not started")) :=
  ⟨rfl, rfl⟩

/-- C6: on every execution of `request_rename` that passes the
started-precondition — whether the rename request succeeds, the request
raises, or the response-shape validation raises afterwards — the trace
contains exactly one `didOpen` and exactly one `didClose` of the target
file, with the `didClose` after the `didOpen`. -/
theorem claim_C6 (env : OsEnv) (repositoryRootPath relativeFilePath : String)
    (line column : Int) (newName : String) (renameResp : Except PyErr Json) :
    let t := (request_rename env repositoryRootPath true relativeFilePath line
      column newName renameResp).1
    t.countP (isOpenOf relativeFilePath) = 1 ∧
    t.countP (isCloseOf relativeFilePath) = 1 ∧
    ∃ i j, i < j ∧ t.get? i = some (.didOpen relativeFilePath) ∧
      t.get? j = some (.didClose relativeFilePath) := by
  cases renameResp with
  | error e =>
    refine ⟨?_, ?_, 0, 2, by norm_num, rfl, rfl⟩ <;>
      simp [request_rename, withOpenFile, List.countP_cons, isOpenOf, isCloseOf]
  | ok resp =>
    refine ⟨?_, ?_, 0, 2, by norm_num, rfl, rfl⟩ <;>
      simp [request_rename, withOpenFile, List.countP_cons, isOpenOf, isCloseOf]

theorem translateSymbolItem_err (item : Json) :
    isErr (translateSymbolItem item) = true ↔ symbolItemOk item = false := by
  cases item with
  | obj f =>
    cases hn : lookupField f "name" with
    | none =>
      simp [translateSymbolItem, pySubscript, hn, symbolItemOk, hasField,
        isErr, Bind.bind, Except.bind]
    | some nv =>
      cases hk : lookupField f "kind" with
      | none =>
        simp [translateSymbolItem, pySubscript, hn, hk, symbolItemOk,
          hasField, isErr, Bind.bind, Except.bind]
      | some kv =>
        cases hl : lookupField f "location" with
        | none =>
          simp [translateSymbolItem, pySubscript, hn, hk, hl, symbolItemOk,
            hasField, isErr, Bind.bind, Except.bind]
        | some loc =>
          cases loc with
          | obj lf =>
            cases hrng : lookupField lf "range" with
            | some rv =>
              simp [translateSymbolItem, pySubscript, hn, hk, hl, hrng,
                symbolItemOk, locationOk, hasField, isErr, Bind.bind,
                Except.bind]
            | none =>
              cases hu : lookupField lf "uri" with
              | none =>
                simp [translateSymbolItem, pySubscript, hn, hk, hl, hrng, hu,
                  symbolItemOk, locationOk, hasField, isErr, Bind.bind,
                  Except.bind]
              | some u =>
                simp [translateSymbolItem, pySubscript, hn, hk, hl, hrng, hu,
                  symbolItemOk, locationOk, hasField, isErr, Bind.bind,
                  Except.bind]
          | null =>
            simp [translateSymbolItem, pySubscript, hn, hk, hl, symbolItemOk,
              locationOk, hasField, isErr, Bind.bind, Except.bind]
          | bool b =>
            simp [translateSymbolItem, pySubscript, hn, hk, hl, symbolItemOk,
              locationOk, hasField, isErr, Bind.bind, Except.bind]
          | int n =>
            simp [translateSymbolItem, pySubscript, hn, hk, hl, symbolItemOk,
              locationOk, hasField, isErr, Bind.bind, Except.bind]
          | str s =>
            simp [translateSymbolItem, pySubscript, hn, hk, hl, symbolItemOk,
              locationOk, hasField, isErr, Bind.bind, Except.bind]
          | arr es =>
            simp [translateSymbolItem, pySubscript, hn, hk, hl, symbolItemOk,
              locationOk, hasField, isErr, Bind.bind, Except.bind]
  | null => simp [translateSymbolItem, symbolItemOk, isErr]
  | bool b => simp [translateSymbolItem, symbolItemOk, isErr]
  | int n => simp [translateSymbolItem, symbolItemOk, isErr]
  | str s => simp [translateSymbolItem, symbolItemOk, isErr]
  | arr es => simp [translateSymbolItem, symbolItemOk, isErr]

theorem translateSymbolList_err (items : List Json) :
    isErr (translateSymbolList items) = true ↔
      items.all symbolItemOk = false := by
  induction items with
  | nil => simp [translateSymbolList, isErr]
  | cons item rest ih =>
    cases hi : translateSymbolItem item with
    | error e =>
      have : symbolItemOk item = false :=
        (translateSymbolItem_err item).mp (by simp [hi, isErr])
      simp [translateSymbolList, hi, isErr, List.all_cons, this]
    | ok s =>
      have : ¬symbolItemOk item = false := by
        intro hbad
        have := (translateSymbolItem_err item).mpr hbad
        rw [hi] at this
        simp [isErr] at this
      have hok : symbolItemOk item = true := by
        cases h : symbolItemOk item
        · exact absurd h this
        · rfl
      cases hr : translateSymbolList rest with
      | error e =>
        have := ih.mp (by simp [hr, isErr])
        simp [translateSymbolList, hi, hr, isErr, List.all_cons, hok, this]
      | ok ss =>
        have : ¬(rest.all symbolItemOk = false) := by
          intro hbad
          have := ih.mpr hbad
          rw [hr] at this
          simp [isErr] at this
        have hall : rest.all symbolItemOk = true := by
          cases h : rest.all symbolItemOk
          · exact absurd h this
          · rfl
        simp [translateSymbolList, hi, hr, isErr, List.all_cons, hok, hall]

theorem translateSymbolList_get (items : List Json) (syms : List Json)
    (h : translateSymbolList items = .ok syms) :
    syms.length = items.length ∧
    ∀ i (hi : i < items.length) (hj : i < syms.length),
      translateSymbolItem (items.get ⟨i, hi⟩) = .ok (syms.get ⟨i, hj⟩) := by
  induction items generalizing syms with
  | nil =>
    simp [translateSymbolList] at h
    subst h
    simp
  | cons item rest ih =>
    cases hi : translateSymbolItem item with
    | error e =>
      rw [translateSymbolList, hi] at h
      exact absurd h (by simp)
    | ok s =>
      rw [translateSymbolList, hi] at h
      cases hr : translateSymbolList rest with
      | error e =>
        rw [hr] at h
        exact absurd h (by simp)
      | ok ss =>
        rw [hr] at h
        have hsyms : s :: ss = syms := by
          simpa using h
        subst hsyms
        obtain ⟨hlen, hget⟩ := ih ss hr
        refine ⟨by simp [hlen], ?_⟩
        intro i hilt hjlt
        cases i with
        | zero => simpa using hi
        | succ n =>
          have hn1 : n < rest.length := by simpa using hilt
          have hn2 : n < ss.length := by simpa using hjlt
          simpa using hget n hn1 hn2

theorem lookup_optFold (f base : List (String × Json)) (k : String)
    (h1 : k ≠ "containerName") (h2 : k ≠ "tags") (h3 : k ≠ "data") :
    lookupField (["containerName", "tags", "data"].foldl
      (fun acc fld =>
        match lookupField f fld with
        | some v => setAssoc acc fld v
        | none => acc) base) k = lookupField base k := by
  simp only [List.foldl_cons, List.foldl_nil]
  cases hc : lookupField f "containerName" <;>
    cases ht : lookupField f "tags" <;>
      cases hd : lookupField f "data" <;>
        simp [hc, ht, hd,
          lookupField_setAssoc_ne _ _ _ _ (Ne.symm h1),
          lookupField_setAssoc_ne _ _ _ _ (Ne.symm h2),
          lookupField_setAssoc_ne _ _ _ _ (Ne.symm h3)]

theorem translateSymbolItem_loc_noRange (f lf : List (String × Json))
    (u : Json) (sym : Json)
    (hl : lookupField f "location" = some (.obj lf))
    (hrng : lookupField lf "range" = none)
    (hu : lookupField lf "uri" = some u)
    (hok : translateSymbolItem (.obj f) = .ok sym) :
    jsonField sym "location" = some (.obj [("uri", u)]) := by
  cases hn : lookupField f "name" with
  | none =>
    rw [show translateSymbolItem (.obj f) = .error (.keyErr "name") by
      simp [translateSymbolItem, pySubscript, hn, Bind.bind, Except.bind]]
      at hok
    exact absurd hok (by simp)
  | some nv =>
    cases hk : lookupField f "kind" with
    | none =>
      rw [show translateSymbolItem (.obj f) = .error (.keyErr "kind") by
        simp [translateSymbolItem, pySubscript, hn, hk, Bind.bind,
          Except.bind]] at hok
      exact absurd hok (by simp)
    | some kv =>
      have hsym : sym = .obj (["containerName", "tags", "data"].foldl
          (fun acc fld =>
            match lookupField f fld with
            | some v => setAssoc acc fld v
            | none => acc)
          [("name", nv), ("kind", kv), ("location", Json.obj [("uri", u)])]) := by
        have := hok
        simp [translateSymbolItem, pySubscript, hn, hk, hl, hrng, hu,
          hasField, Bind.bind, Except.bind] at this
        exact this.symm
      subst hsym
      simp only [jsonField]
      rw [lookup_optFold f _ "location" (by decide) (by decide) (by decide)]
      simp [lookupField]

theorem translateSymbolItem_loc_range (f lf : List (String × Json))
    (rv : Json) (sym : Json)
    (hl : lookupField f "location" = some (.obj lf))
    (hrng : lookupField lf "range" = some rv)
    (hok : translateSymbolItem (.obj f) = .ok sym) :
    jsonField sym "location" = some (.obj lf) := by
  cases hn : lookupField f "name" with
  | none =>
    rw [show translateSymbolItem (.obj f) = .error (.keyErr "name") by
      simp [translateSymbolItem, pySubscript, hn, Bind.bind, Except.bind]]
      at hok
    exact absurd hok (by simp)
  | some nv =>
    cases hk : lookupField f "kind" with
    | none =>
      rw [show translateSymbolItem (.obj f) = .error (.keyErr "kind") by
        simp [translateSymbolItem, pySubscript, hn, hk, Bind.bind,
          Except.bind]] at hok
      exact absurd hok (by simp)
    | some kv =>
      have hsym : sym = .obj (["containerName", "tags", "data"].foldl
          (fun acc fld =>
            match lookupField f fld with
            | some v => setAssoc acc fld v
            | none => acc)
          [("name", nv), ("kind", kv), ("location", Json.obj lf)]) := by
        have := hok
        simp [translateSymbolItem, pySubscript, hn, hk, hl, hrng,
          hasField, Bind.bind, Except.bind] at this
        exact this.symm
      subst hsym
      simp only [jsonField]
      rw [lookup_optFold f _ "location" (by decide) (by decide) (by decide)]
      simp [lookupField]

/-- C2: a `null` workspace-symbol response is mapped to the empty list
rather than an error; a response item whose location dict lacks `"range"`
yields a symbol whose location contains only the item's URI; an item whose
location dict has `"range"` keeps that location unchanged. -/
theorem claim_C2 :
    (∀ q : String, request_workspace_symbols true q (.ok .null) =
      ([.workspaceSymbolRequest q], .ok [])) ∧
    (∀ (items syms : List Json),
      translateWorkspaceSymbolsResponse (.arr items) = .ok syms →
      ∀ i (hi : i < items.length) (hj : i < syms.length)
        (f lf : List (String × Json)),
        items.get ⟨i, hi⟩ = .obj f →
        lookupField f "location" = some (.obj lf) →
        (∀ u, lookupField lf "range" = none → lookupField lf "uri" = some u →
          jsonField (syms.get ⟨i, hj⟩) "location" =
            some (.obj [("uri", u)])) ∧
        (∀ rv, lookupField lf "range" = some rv →
          jsonField (syms.get ⟨i, hj⟩) "location" = some (.obj lf))) := by
  constructor
  · intro q
    rfl
  · intro items syms h i hi hj f lf hitem hl
    have hget := (translateSymbolList_get items syms h).2 i hi hj
    rw [hitem] at hget
    exact ⟨fun u hrng hu =>
        translateSymbolItem_loc_noRange f lf u _ hl hrng hu hget,
      fun rv hrng =>
        translateSymbolItem_loc_range f lf rv _ hl hrng hget⟩

theorem claim_C2_witness :
    request_workspace_symbols true "Foo" (.ok .null) =
      ([.workspaceSymbolRequest "Foo"], .ok []) ∧
    jsonField (wsSyms.get ⟨0, by decide⟩) "location" =
      some (.obj [("uri", .str "file:///a.swift")]) ∧
    jsonField (wsSyms.get ⟨1, by decide⟩) "location" =
      some (.obj [("uri", .str "file:///b.swift"),
                  ("range", syntheticRange)]) := by
  refine ⟨claim_C2.1 "Foo", ?_, ?_⟩
  · exact (claim_C2.2 wsItems wsSyms rfl 0 (by decide) (by decide) _ _ rfl
      rfl).1 (.str "file:///a.swift") rfl rfl
  · exact (claim_C2.2 wsItems wsSyms rfl 1 (by decide) (by decide) _ _ rfl
      rfl).2 syntheticRange rfl

/-- C7: each typed translation raises exactly when the raw response fails
the method's expected shape — rename: a dict with a `changes` field mapping
URIs to arrays of dicts each containing `range` and `newText`; workspace
symbols: `null` or a list of dicts with `name`, `kind` and a location that
is a dict with a `range` or at least a `uri` — and never silently coerces a
malformed response. -/
theorem claim_C7 (response : Json) :
    (isErr (translateRenameResponse response) = true ↔
      renameShapeOk response = false) ∧
    (isErr (translateWorkspaceSymbolsResponse response) = true ↔
      wsShapeOk response = false) := by
  constructor
  · cases response with
    | obj fields =>
      cases hch : lookupField fields "changes" with
      | none =>
        simp [translateRenameResponse, renameShapeOk, hasField, hch, isErr]
      | some changesVal =>
        cases changesVal with
        | obj ch =>
          have hrw : translateRenameResponse (.obj fields) =
              translateChanges ch [] := by
            simp [translateRenameResponse, hasField, hch]
          rw [hrw, translateChanges_eq]
          cases hall : ch.all changesEntryOk with
          | true => simp [hall, renameShapeOk, hch, isErr]
          | false => simp [hall, renameShapeOk, hch, isErr]
        | null =>
          simp [translateRenameResponse, renameShapeOk, hasField, hch, isErr]
        | bool b =>
          simp [translateRenameResponse, renameShapeOk, hasField, hch, isErr]
        | int n =>
          simp [translateRenameResponse, renameShapeOk, hasField, hch, isErr]
        | str s =>
          simp [translateRenameResponse, renameShapeOk, hasField, hch, isErr]
        | arr es =>
          simp [translateRenameResponse, renameShapeOk, hasField, hch, isErr]
    | null => simp [translateRenameResponse, renameShapeOk, isErr]
    | bool b => simp [translateRenameResponse, renameShapeOk, isErr]
    | int n => simp [translateRenameResponse, renameShapeOk, isErr]
    | str s => simp [translateRenameResponse, renameShapeOk, isErr]
    | arr es => simp [translateRenameResponse, renameShapeOk, isErr]
  · cases response with
    | null => simp [translateWorkspaceSymbolsResponse, wsShapeOk, isErr]
    | arr items =>
      have h := translateSymbolList_err items
      simpa [translateWorkspaceSymbolsResponse, wsShapeOk] using h
    | bool b => simp [translateWorkspaceSymbolsResponse, wsShapeOk, isErr]
    | int n => simp [translateWorkspaceSymbolsResponse, wsShapeOk, isErr]
    | str s => simp [translateWorkspaceSymbolsResponse, wsShapeOk, isErr]
    | obj f => simp [translateWorkspaceSymbolsResponse, wsShapeOk, isErr]

theorem getInitializeParams_markers_bad (env : OsEnv) (template : Json)
    (root : String) (hbad : templateMarkersOk template = false) :
    isErr (getInitializeParams env template root) = true := by
  cases template with
  | obj f =>
    cases h1 : lookupField f "processId" with
    | none =>
      simp [getInitializeParams, pySubscript, h1, isErr, Bind.bind,
        Except.bind]
    | some v1 =>
      cases hp1 : pyEq v1 (.str markerProcessId) with
      | false =>
        simp [getInitializeParams, pySubscript, h1, hp1, isErr, Bind.bind,
          Except.bind]
      | true =>
        have e1 : lookupField (setAssoc f "processId" (Json.int env.pid))
            "rootPath" = lookupField f "rootPath" :=
          lookupField_setAssoc_ne _ _ _ _ (by decide)
        cases h2 : lookupField f "rootPath" with
        | none =>
          simp [getInitializeParams, pySubscript, pyAssign, h1, hp1, e1, h2,
            isErr, Bind.bind, Except.bind]
        | some v2 =>
          cases hp2 : pyEq v2 (.str markerRootPath) with
          | false =>
            simp [getInitializeParams, pySubscript, pyAssign, h1, hp1, e1,
              h2, hp2, isErr, Bind.bind, Except.bind]
          | true =>
            have e2 : lookupField (setAssoc (setAssoc f "processId"
                (Json.int env.pid)) "rootPath"
                  (Json.str (if env.isabs root then root
                             else env.abspath root))) "rootUri" =
                lookupField f "rootUri" := by
              rw [lookupField_setAssoc_ne _ _ _ _ (by decide),
                lookupField_setAssoc_ne _ _ _ _ (by decide)]
            cases h3 : lookupField f "rootUri" with
            | none =>
              simp [getInitializeParams, pySubscript, pyAssign, h1, hp1, e1,
                h2, hp2, normPath, e2, h3, isErr, Bind.bind, Except.bind]
            | some v3 =>
              cases hp3 : pyEq v3 (.str markerRootUri) with
              | false =>
                simp [getInitializeParams, pySubscript, pyAssign, h1, hp1,
                  e1, h2, hp2, normPath, e2, h3, hp3, isErr, Bind.bind,
                  Except.bind]
              | true =>
                have e3 : lookupField (setAssoc (setAssoc (setAssoc f
                    "processId" (Json.int env.pid)) "rootPath"
                    (Json.str (if env.isabs root then root
                               else env.abspath root))) "rootUri"
                    (Json.str (env.as_uri (if env.isabs root then root
                               else env.abspath root))))
                    "workspaceFolders" = lookupField f "workspaceFolders" := by
                  rw [lookupField_setAssoc_ne _ _ _ _ (by decide),
                    lookupField_setAssoc_ne _ _ _ _ (by decide),
                    lookupField_setAssoc_ne _ _ _ _ (by decide)]
                cases h4 : lookupField f "workspaceFolders" with
                | none =>
                  simp [getInitializeParams, pySubscript, pyAssign, h1, hp1,
                    e1, h2, hp2, e2, h3, hp3, normPath, e3, h4, isErr,
                    Bind.bind, Except.bind]
                | some v4 =>
                  cases hp4 : pyEq v4 (.str markerWorkspaceFolders) with
                  | false =>
                    simp [getInitializeParams, pySubscript, pyAssign, h1,
                      hp1, e1, h2, hp2, e2, h3, hp3, normPath, e3, h4, hp4,
                      isErr, Bind.bind, Except.bind]
                  | true =>
                    exact absurd hbad (by
                      simp [templateMarkersOk, h1, hp1, h2, hp2, h3, hp3,
                        h4, hp4])
  | null => simp [getInitializeParams, pySubscript, isErr, Bind.bind,
      Except.bind]
  | bool b => simp [getInitializeParams, pySubscript, isErr, Bind.bind,
      Except.bind]
  | int n => simp [getInitializeParams, pySubscript, isErr, Bind.bind,
      Except.bind]
  | str s => simp [getInitializeParams, pySubscript, isErr, Bind.bind,
      Except.bind]
  | arr es => simp [getInitializeParams, pySubscript, isErr, Bind.bind,
      Except.bind]

theorem getInitializeParams_markers_ok (env : OsEnv)
    (f : List (String × Json)) (root : String)
    (hok : templateMarkersOk (.obj f) = true) :
    getInitializeParams env (.obj f) root =
      .ok (.obj (setAssoc (setAssoc (setAssoc (setAssoc f
        "processId" (.int env.pid))
        "rootPath" (.str (normPath env root)))
        "rootUri" (.str (env.as_uri (normPath env root))))
        "workspaceFolders"
        (.arr [.obj [("uri", .str (env.as_uri (normPath env root))),
                     ("name", .str (env.basename (normPath env root)))]]))) := by
  cases h1 : lookupField f "processId" with
  | none => simp [templateMarkersOk, h1] at hok
  | some v1 =>
    cases h2 : lookupField f "rootPath" with
    | none => simp [templateMarkersOk, h1, h2] at hok
    | some v2 =>
      cases h3 : lookupField f "rootUri" with
      | none => simp [templateMarkersOk, h1, h2, h3] at hok
      | some v3 =>
        cases h4 : lookupField f "workspaceFolders" with
        | none => simp [templateMarkersOk, h1, h2, h3, h4] at hok
        | some v4 =>
          simp only [templateMarkersOk, h1, h2, h3, h4,
            Bool.and_eq_true] at hok
          obtain ⟨⟨⟨hp1, hp2⟩, hp3⟩, hp4⟩ := hok
          have e1 : lookupField (setAssoc f "processId" (Json.int env.pid))
              "rootPath" = lookupField f "rootPath" :=
            lookupField_setAssoc_ne _ _ _ _ (by decide)
          have e2 : lookupField (setAssoc (setAssoc f "processId"
              (Json.int env.pid)) "rootPath"
                (Json.str (if env.isabs root then root
                           else env.abspath root))) "rootUri" =
              lookupField f "rootUri" := by
            rw [lookupField_setAssoc_ne _ _ _ _ (by decide),
              lookupField_setAssoc_ne _ _ _ _ (by decide)]
          have e3 : lookupField (setAssoc (setAssoc (setAssoc f
              "processId" (Json.int env.pid)) "rootPath"
              (Json.str (if env.isabs root then root
                         else env.abspath root))) "rootUri"
              (Json.str (env.as_uri (if env.isabs root then root
                         else env.abspath root))))
              "workspaceFolders" = lookupField f "workspaceFolders" := by
            rw [lookupField_setAssoc_ne _ _ _ _ (by decide),
              lookupField_setAssoc_ne _ _ _ _ (by decide),
              lookupField_setAssoc_ne _ _ _ _ (by decide)]
          simp [getInitializeParams, pySubscript, pyAssign, h1, hp1, e1, h2,
            hp2, e2, h3, hp3, e3, h4, hp4, normPath, Bind.bind, Except.bind]

/-- C3: `_get_initialize_params` fails whenever any placeholder of the
loaded template differs from its literal marker, and otherwise returns the
template with the process id, the absolute repository path, the path's file
URI and the one-element workspace-folder list substituted in. -/
theorem claim_C3 (env : OsEnv) (template : Json) (root : String) :
    (templateMarkersOk template = false →
      isErr (getInitializeParams env template root) = true) ∧
    (∀ f, template = .obj f → templateMarkersOk template = true →
      getInitializeParams env template root =
        .ok (.obj (setAssoc (setAssoc (setAssoc (setAssoc f
          "processId" (.int env.pid))
          "rootPath" (.str (normPath env root)))
          "rootUri" (.str (env.as_uri (normPath env root))))
          "workspaceFolders"
          (.arr [.obj [("uri", .str (env.as_uri (normPath env root))),
                       ("name", .str (env.basename (normPath env root)))]])))) :=
  ⟨fun hbad => getInitializeParams_markers_bad env template root hbad,
   fun f hf hok => by
     subst hf
     exact getInitializeParams_markers_ok env f root hok⟩

set_option maxRecDepth 8192 in
theorem claim_C3_witness :
    getInitializeParams sampleEnv validTemplate "/repo" =
      .ok (.obj [("processId", .int 4242),
                 ("rootPath", .str "/repo"),
                 ("rootUri", .str "file:///repo"),
                 ("workspaceFolders",
                  .arr [.obj [("uri", .str "file:///repo"),
                              ("name", .str "workspace")]]),
                 ("capabilities", .obj [])]) :=
  (claim_C3 sampleEnv validTemplate "/repo").2
    [("processId", .str markerProcessId),
     ("rootPath", .str markerRootPath),
     ("rootUri", .str markerRootUri),
     ("workspaceFolders", .str markerWorkspaceFolders),
     ("capabilities", .obj [])] rfl (by decide)

/-- C5: whenever the initialize response's
`capabilities.textDocumentSync.change` field is absent or differs from `2`,
`start_server` fails with an error, the `initialized` notification is never
sent, and the scoped body never runs. -/
theorem claim_C5 (env : OsEnv) (template : Json) (root : String)
    (initResp : Json) (bodySucceeds : Bool)
    (hbad : initChangeOk initResp = false) :
    isErr (startServerTrace env template root initResp bodySucceeds).2 =
      true ∧
    SEvent.notifyInitialized ∉
      (startServerTrace env template root initResp bodySucceeds).1 ∧
    SEvent.bodyRun ∉
      (startServerTrace env template root initResp bodySucceeds).1 := by
  cases hg : getInitializeParams env template root with
  | error e =>
    refine ⟨?_, ?_, ?_⟩ <;>
      simp [startServerTrace, hg, isErr, handlerRegistrations]
  | ok ip =>
    cases hc : initChangeField initResp with
    | error e =>
      refine ⟨?_, ?_, ?_⟩ <;>
        simp [startServerTrace, hg, hc, isErr, handlerRegistrations]
    | ok v =>
      have hpe : pyEq v (.int 2) = false := by
        have := hbad
        rw [initChangeOk, hc] at this
        exact this
      refine ⟨?_, ?_, ?_⟩ <;>
        simp [startServerTrace, hg, hc, hpe, isErr, handlerRegistrations]

theorem claim_C5_witness :
    isErr (startServerTrace sampleEnv validTemplate "/repo" Json.null
      true).2 = true ∧
    SEvent.notifyInitialized ∉
      (startServerTrace sampleEnv validTemplate "/repo" Json.null true).1 ∧
    SEvent.bodyRun ∉
      (startServerTrace sampleEnv validTemplate "/repo" Json.null true).1 :=
  claim_C5 sampleEnv validTemplate "/repo" Json.null true rfl

/-- C8: in every execution of `start_server`, if the `initialize` request
is dispatched at position `n` of the trace, each of the seven server-push
handler registrations already occurred among the first `n` events. -/
theorem claim_C8 (env : OsEnv) (template : Json) (root : String)
    (initResp : Json) (bodySucceeds : Bool) (n : ℕ)
    (hn : (startServerTrace env template root initResp bodySucceeds).1.get? n
      = some SEvent.sendInitialize) :
    ∀ e ∈ handlerRegistrations,
      e ∈ (startServerTrace env template root initResp bodySucceeds).1.take n
    := by
  have hshape : ∃ rest,
      (startServerTrace env template root initResp bodySucceeds).1 =
        handlerRegistrations ++ rest := by
    cases hg : getInitializeParams env template root with
    | error e =>
      refine ⟨[SEvent.superStart,
        SEvent.log "Starting XcodeBuildServer server process",
        SEvent.processStart], ?_⟩
      simp [startServerTrace, hg]
    | ok ip =>
      cases hc : initChangeField initResp with
      | error e =>
        refine ⟨[SEvent.superStart,
          SEvent.log "Starting XcodeBuildServer server process",
          SEvent.processStart,
          SEvent.log "Sending initialize request from LSP client to LSP server and awaiting response",
          SEvent.sendInitialize], ?_⟩
        simp [startServerTrace, hg, hc]
      | ok v =>
        cases hpe : pyEq v (.int 2) with
        | false =>
          refine ⟨[SEvent.superStart,
            SEvent.log "Starting XcodeBuildServer server process",
            SEvent.processStart,
            SEvent.log "Sending initialize request from LSP client to LSP server and awaiting response",
            SEvent.sendInitialize], ?_⟩
          simp [startServerTrace, hg, hc, hpe]
        | true =>
          cases bodySucceeds with
          | false =>
            refine ⟨[SEvent.superStart,
              SEvent.log "Starting XcodeBuildServer server process",
              SEvent.processStart,
              SEvent.log "Sending initialize request from LSP client to LSP server and awaiting response",
              SEvent.sendInitialize, SEvent.notifyInitialized,
              SEvent.bodyRun], ?_⟩
            simp [startServerTrace, hg, hc, hpe]
          | true =>
            refine ⟨[SEvent.superStart,
              SEvent.log "Starting XcodeBuildServer server process",
              SEvent.processStart,
              SEvent.log "Sending initialize request from LSP client to LSP server and awaiting response",
              SEvent.sendInitialize, SEvent.notifyInitialized,
              SEvent.bodyRun, SEvent.shutdownRequest,
              SEvent.stopServer], ?_⟩
            simp [startServerTrace, hg, hc, hpe]
  obtain ⟨rest, hrest⟩ := hshape
  rw [hrest] at hn ⊢
  have hlen : handlerRegistrations.length = 7 := by decide
  have hn7 : 7 ≤ n := by
    by_contra hlt
    push_neg at hlt
    rw [List.get?_append (by omega)] at hn
    have hmem := List.get?_mem hn
    revert hmem
    decide
  intro e he
  rw [List.take_append_eq_append_take,
    List.take_of_length_le (by omega)]
  exact List.mem_append.mpr (Or.inl he)

set_option maxRecDepth 8192 in
theorem claim_C8_witness :
    SEvent.onRequest "client/registerCapability" ∈
      (startServerTrace sampleEnv validTemplate "/repo" goodInitResp
        true).1.take 11 :=
  claim_C8 sampleEnv validTemplate "/repo" goodInitResp true 11
    (by decide) (SEvent.onRequest "client/registerCapability") (by decide)

set_option maxRecDepth 8192 in
/-- C9 counterexample: in a run whose scoped body raises (after a fully
successful startup), the `shutdown` request and the process stop are never
performed — the statements after `yield` are skipped, there being no
`try`/`finally` around it. -/
theorem claim_C9_counterexample :
    SEvent.bodyRun ∈
      (startServerTrace sampleEnv validTemplate "/repo" goodInitResp
        false).1 ∧
    SEvent.shutdownRequest ∉
      (startServerTrace sampleEnv validTemplate "/repo" goodInitResp
        false).1 ∧
    SEvent.stopServer ∉
      (startServerTrace sampleEnv validTemplate "/repo" goodInitResp
        false).1 ∧
    isErr (startServerTrace sampleEnv validTemplate "/repo" goodInitResp
      false).2 = true := by
  decide

/-- C9 (amended): when the scoped body completes normally, the graceful
shutdown request is sent and the server process then stopped, in that
order, right after the body; when the body raises, neither the shutdown
request nor the stop is performed (the exception propagates out of the
context). -/
theorem claim_C9 (env : OsEnv) (template : Json) (root : String)
    (initResp : Json) :
    ((startServerTrace env template root initResp true).2 = .ok () →
      ∃ pre, (startServerTrace env template root initResp true).1 =
        pre ++ [SEvent.bodyRun, SEvent.shutdownRequest,
                SEvent.stopServer]) ∧
    SEvent.shutdownRequest ∉
      (startServerTrace env template root initResp false).1 ∧
    SEvent.stopServer ∉
      (startServerTrace env template root initResp false).1 := by
  cases hg : getInitializeParams env template root with
  | error e =>
    refine ⟨fun h => absurd h (by simp [startServerTrace, hg]), ?_, ?_⟩ <;>
      simp [startServerTrace, hg, handlerRegistrations]
  | ok ip =>
    cases hc : initChangeField initResp with
    | error e =>
      refine ⟨fun h => absurd h (by simp [startServerTrace, hg, hc]),
        ?_, ?_⟩ <;>
        simp [startServerTrace, hg, hc, handlerRegistrations]
    | ok v =>
      cases hpe : pyEq v (.int 2) with
      | false =>
        refine ⟨fun h => absurd h (by simp [startServerTrace, hg, hc, hpe]),
          ?_, ?_⟩ <;>
          simp [startServerTrace, hg, hc, hpe, handlerRegistrations]
      | true =>
        refine ⟨fun _ => ?_, ?_, ?_⟩
        · refine ⟨handlerRegistrations ++ [SEvent.superStart,
            SEvent.log "Starting XcodeBuildServer server process",
            SEvent.processStart,
            SEvent.log "Sending initialize request from LSP client to LSP server and awaiting response",
            SEvent.sendInitialize, SEvent.notifyInitialized], ?_⟩
          simp [startServerTrace, hg, hc, hpe]
        · simp [startServerTrace, hg, hc, hpe, handlerRegistrations]
        · simp [startServerTrace, hg, hc, hpe, handlerRegistrations]

set_option maxRecDepth 8192 in
theorem claim_C9_witness :
    ∃ pre, (startServerTrace sampleEnv validTemplate "/repo" goodInitResp
      true).1 =
      pre ++ [SEvent.bodyRun, SEvent.shutdownRequest, SEvent.stopServer] :=
  (claim_C9 sampleEnv validTemplate "/repo" goodInitResp).1 rfl

theorem step_completion (s : Bool) (reg : Json)
    (h1 : isCompletionReg reg = true) :
    (completionOptionsOk reg = true ∧
      completionRegistrationStep s reg = .ok true) ∨
    (completionOptionsOk reg = false ∧
      isErr (completionRegistrationStep s reg) = true) := by
  cases hm : pySubscript reg "method" with
  | error e =>
    rw [isCompletionReg, hm] at h1
    exact absurd h1 (by simp)
  | ok m =>
    have hpm : pyEq m (.str "textDocument/completion") = true := by
      rw [isCompletionReg, hm] at h1
      exact h1
    cases hro : pySubscript reg "registerOptions" with
    | error e =>
      right
      constructor
      · rw [completionOptionsOk, hro]
      · simp [completionRegistrationStep, hm, hpm, hro, isErr, Bind.bind,
          Except.bind]
    | ok ro =>
      cases hrp : pySubscript ro "resolveProvider" with
      | error e =>
        right
        constructor
        · simp [completionOptionsOk, hro, hrp]
        · simp [completionRegistrationStep, hm, hpm, hro, hrp, isErr,
            Bind.bind, Except.bind]
      | ok rp =>
        cases hrp2 : pyEq rp (.bool true) with
        | false =>
          right
          constructor
          · simp [completionOptionsOk, hro, hrp, hrp2]
          · simp [completionRegistrationStep, hm, hpm, hro, hrp, hrp2,
              isErr, Bind.bind, Except.bind]
        | true =>
          cases htc : pySubscript ro "triggerCharacters" with
          | error e =>
            right
            constructor
            · simp [completionOptionsOk, hro, hrp, hrp2, htc]
            · simp [completionRegistrationStep, hm, hpm, hro, hrp, hrp2,
                htc, isErr, Bind.bind, Except.bind]
          | ok tc =>
            cases htc2 : pyEq tc
                (.arr [.str ".", .str "@", .str "#", .str "*", .str " "])
                with
            | false =>
              right
              constructor
              · simp [completionOptionsOk, hro, hrp, hrp2, htc, htc2]
              · simp [completionRegistrationStep, hm, hpm, hro, hrp, hrp2,
                  htc, htc2, isErr, Bind.bind, Except.bind]
            | true =>
              left
              constructor
              · simp [completionOptionsOk, hro, hrp, hrp2, htc, htc2]
              · simp [completionRegistrationStep, hm, hpm, hro, hrp, hrp2,
                  htc, htc2, Bind.bind, Except.bind]

theorem step_skip (s : Bool) (reg : Json)
    (h1 : hasMethodField reg = true) (h2 : isCompletionReg reg = false) :
    completionRegistrationStep s reg = .ok s := by
  cases hm : pySubscript reg "method" with
  | error e =>
    rw [hasMethodField, hm] at h1
    exact absurd h1 (by simp)
  | ok m =>
    have hpm : pyEq m (.str "textDocument/completion") = false := by
      rw [isCompletionReg, hm] at h2
      exact h2
    simp [completionRegistrationStep, hm, hpm, Bind.bind, Except.bind]

theorem step_ok_cases (s s' : Bool) (reg : Json)
    (h : completionRegistrationStep s reg = .ok s') :
    s' = s ∨ isCompletionReg reg = true := by
  cases hm : pySubscript reg "method" with
  | error e =>
    rw [completionRegistrationStep] at h
    simp [hm, Bind.bind, Except.bind] at h
  | ok m =>
    cases hpm : pyEq m (.str "textDocument/completion") with
    | true =>
      right
      rw [isCompletionReg, hm]
      exact hpm
    | false =>
      left
      rw [completionRegistrationStep] at h
      simp [hm, hpm, Bind.bind, Except.bind] at h
      exact h.symm

theorem registerLoop_err (regs : List Json) (s : Bool)
    (h : ∃ reg ∈ regs, isCompletionReg reg = true ∧
      completionOptionsOk reg = false) :
    isErr (registerLoop regs s) = true := by
  induction regs generalizing s with
  | nil => simp at h
  | cons reg rest ih =>
    obtain ⟨bad, hbadmem, hbad1, hbad2⟩ := h
    rcases List.mem_cons.mp hbadmem with hhead | htail
    · subst hhead
      rcases step_completion s bad hbad1 with ⟨hopt, _⟩ | ⟨_, herr⟩
      · rw [hopt] at hbad2
        exact absurd hbad2 (by simp)
      · cases hstep : completionRegistrationStep s bad with
        | error e => simp [registerLoop, hstep, isErr]
        | ok s' =>
          rw [hstep] at herr
          exact absurd herr (by simp [isErr])
    · cases hstep : completionRegistrationStep s reg with
      | error e => simp [registerLoop, hstep, isErr]
      | ok s' =>
        rw [registerLoop, hstep]
        exact ih s' ⟨bad, htail, hbad1, hbad2⟩

theorem registerLoop_ok_all (regs : List Json) (s : Bool)
    (h : ∀ reg ∈ regs, hasMethodField reg = true ∧
      (isCompletionReg reg = true → completionOptionsOk reg = true)) :
    registerLoop regs s = .ok (s || regs.any isCompletionReg) := by
  induction regs generalizing s with
  | nil => simp [registerLoop]
  | cons reg rest ih =>
    obtain ⟨hm, himp⟩ := h reg (by simp)
    have hrest : ∀ r ∈ rest, hasMethodField r = true ∧
        (isCompletionReg r = true → completionOptionsOk r = true) :=
      fun r hr => h r (by simp [hr])
    cases hcomp : isCompletionReg reg with
    | true =>
      rcases step_completion s reg hcomp with ⟨_, hstep⟩ | ⟨hbad, _⟩
      · simp [registerLoop, hstep, ih true hrest, List.any_cons, hcomp]
      · rw [himp hcomp] at hbad
        exact absurd hbad (by simp)
    | false =>
      simp [registerLoop, step_skip s reg hm hcomp, ih s hrest,
        List.any_cons, hcomp]

theorem registerLoop_ok_true (regs : List Json) (s : Bool)
    (h : registerLoop regs s = .ok true) :
    s = true ∨ ∃ reg ∈ regs, isCompletionReg reg = true := by
  induction regs generalizing s with
  | nil =>
    left
    rw [registerLoop] at h
    simpa using h
  | cons reg rest ih =>
    cases hstep : completionRegistrationStep s reg with
    | error e =>
      rw [registerLoop, hstep] at h
      exact absurd h (by simp)
    | ok s' =>
      rw [registerLoop, hstep] at h
      rcases ih s' h with hs' | ⟨r, hr, hcomp⟩
      · subst hs'
        rcases step_ok_cases s true reg hstep with hss | hcomp
        · left
          exact hss.symm
        · right
          exact ⟨reg, by simp, hcomp⟩
      · right
        exact ⟨r, by simp [hr], hcomp⟩

/-- C10: the `client/registerCapability` handler asserts, for every
`textDocument/completion` registration, that `resolveProvider` is true and
that `triggerCharacters` is exactly `[".", "@", "#", "*", " "]` — an
assertion error replaces the success return whenever a completion
registration carries different options; the `completions_available` event
is set only when a matching completion registration is present, and
registrations for other methods are accepted without effect. -/
theorem claim_C10 (params : Json) (f : List (String × Json))
    (regs : List Json) (hp : params = .obj f)
    (hregs : lookupField f "registrations" = some (.arr regs)) :
    ((∃ reg ∈ regs, isCompletionReg reg = true ∧
        completionOptionsOk reg = false) →
      isErr (register_capability_handler params) = true) ∧
    ((∀ reg ∈ regs, hasMethodField reg = true ∧
        (isCompletionReg reg = true → completionOptionsOk reg = true)) →
      register_capability_handler params = .ok (regs.any isCompletionReg)) ∧
    (register_capability_handler params = .ok true →
      ∃ reg ∈ regs, isCompletionReg reg = true) := by
  subst hp
  have hrch : register_capability_handler (.obj f) =
      registerLoop regs false := by
    simp [register_capability_handler, hasField, hregs]
  rw [hrch]
  refine ⟨fun hbad => registerLoop_err regs false hbad,
    fun hgood => by rw [registerLoop_ok_all regs false hgood]; simp,
    fun hok => ?_⟩
  rcases registerLoop_ok_true regs false hok with hfalse | hex
  · exact absurd hfalse (by simp)
  · exact hex

theorem claim_C10_witness :
    register_capability_handler registerParams = .ok true ∧
    (∃ reg ∈ [goodCompletionReg], isCompletionReg reg = true) := by
  have h := claim_C10 registerParams
    [("registrations", .arr [goodCompletionReg])] [goodCompletionReg]
    rfl rfl
  have hall : ∀ reg ∈ [goodCompletionReg], hasMethodField reg = true ∧
      (isCompletionReg reg = true → completionOptionsOk reg = true) := by
    decide
  refine ⟨h.2.1 hall, h.2.2 (h.2.1 hall)⟩
